import Mathlib

/-!
Verification development for the whl-air teleoperation stack.

The definitions below are shallow embeddings of:
  * `signaling/signaling_message.cc` — the `SignalMessage` wire codec
    (`SignalMessage::StringToType`, `SerializeSignalMessage`,
    `DeserializeSignalMessage`); strings are modelled as `List Char` and
    `std::string::find` as `findSubstr` / `findChar`;
  * `signaling_server/src/session_manager.js` — the relay
    (`addClient`, `removeClient`, `routeMessage`, `sendMessage`); JS `Map`s
    are modelled as insertion-ordered association lists;
  * `webrtc/peer_connection.h` (the `WebrtcManagerImpl` implementation
    translation unit) — manager state, `handleSignalingMessage`,
    `getOrCreatePeerConnection`, `destroyPeerConnection`,
    `checkForHeartbeatLoss`, `handleReceivedHeartbeat`,
    `attemptReconnection`, `sendDataChannelMessageToAllPeers`.

Side effects of the C++/JS code (calls into the transport, application
callbacks, messages written to sockets) are reified as explicit action /
output lists returned next to the successor state.
-/

/-- Association-list lookup: the JS `Map.get` / C++ `std::map::find`.
Keys are unique by construction in every state we build. -/
def mapGet {κ α : Type} [DecidableEq κ] (l : List (κ × α)) (k : κ) : Option α :=
  match l with
  | [] => none
  | (k', v) :: t => if k' = k then some v else mapGet t k

/-- Association-list insert-or-update: the JS `Map.set` / C++ `map[k] = v`.
An existing binding is updated in place, preserving iteration order. -/
def mapSet {κ α : Type} [DecidableEq κ] (l : List (κ × α)) (k : κ) (v : α) :
    List (κ × α) :=
  match l with
  | [] => [(k, v)]
  | (k', v') :: t => if k' = k then (k, v) :: t else (k', v') :: mapSet t k v

/-- Association-list removal: the JS `Map.delete` / C++ `std::map::erase`. -/
def mapDelete {κ α : Type} [DecidableEq κ] (l : List (κ × α)) (k : κ) :
    List (κ × α) :=
  l.filter (fun e => !decide (e.1 = k))

/-- Key-presence test: the JS `Map.has` / C++ `std::map::count`. -/
def containsKey {κ α : Type} [DecidableEq κ] (l : List (κ × α)) (k : κ) : Bool :=
  (mapGet l k).isSome

/-- Characters of a string literal; C++ `std::string` is modelled as `List Char`. -/
def strL (s : String) : List Char := s.toList

/-- The `SignalMessage::Type` enum of `signaling_message.h`.  The header under
`src/` declares `UNKNOWN, JOIN, LEAVE, OFFER, ANSWER, CANDIDATE`; the manager
translation unit additionally references `SignalMessage::Type::HEARTBEAT`
(`case SignalMessage::Type::HEARTBEAT` in `handleSignalingMessage`), so the
enum is embedded with that extra member. -/
inductive SigType where
  | UNKNOWN
  | JOIN
  | LEAVE
  | OFFER
  | ANSWER
  | CANDIDATE
  | HEARTBEAT
deriving DecidableEq, Repr

/-- The `SignalMessage` struct of `signaling_message.h`: `type`, `from`, `to`
and the optional kind-specific payload fields.  (`from` is a Lean keyword, so
the fields are named `from_` / `to_`.)  Defaults mirror the C++ member initialisers:
`type = UNKNOWN`, empty strings, empty optionals. -/
structure SignalMessage where
  type : SigType := SigType.UNKNOWN
  from_ : List Char := []
  to_ : List Char := []
  sdp : Option (List Char) := none
  candidate : Option (List Char) := none
  sdpMid : Option (List Char) := none
  sdpMlineIndex : Option Int := none
  reason : Option (List Char) := none
deriving DecidableEq, Repr

/-- `SignalMessage::StringToType` of `signaling_message.cc`: look the tag up in
`stringToTypeMap` (which holds exactly `unknown, join, leave, offer, answer,
candidate`) and fall back to `UNKNOWN` for everything else — including the
tags `heartbeat`, `join_request` and `error`, which are absent from the map. -/
def stringToType (s : List Char) : SigType :=
  if s = strL "unknown" then SigType.UNKNOWN
  else if s = strL "join" then SigType.JOIN
  else if s = strL "leave" then SigType.LEAVE
  else if s = strL "offer" then SigType.OFFER
  else if s = strL "answer" then SigType.ANSWER
  else if s = strL "candidate" then SigType.CANDIDATE
  else SigType.UNKNOWN

/-- `SignalMessage::TypeToString`: the inverse map `typeToStringMap` of
`signaling_message.cc` (its six entries).  The function body itself is not in
`src/`; lookup with fallback `"unknown"` is assumed for the one enum member
(`HEARTBEAT`) missing from the map. -/
def typeToString : SigType → List Char
  | SigType.UNKNOWN => strL "unknown"
  | SigType.JOIN => strL "join"
  | SigType.LEAVE => strL "leave"
  | SigType.OFFER => strL "offer"
  | SigType.ANSWER => strL "answer"
  | SigType.CANDIDATE => strL "candidate"
  | SigType.HEARTBEAT => strL "unknown"

/-- Bool test whether `pat` is an initial segment of `s` (used to model the
substring search performed by `std::string::find`). -/
def startsWith : List Char → List Char → Bool
  | [], _ => true
  | _ :: _, [] => false
  | p :: ps, c :: cs => p == c && startsWith ps cs

/-- `data.find(pat)` of `std::string`: index of the first occurrence of `pat`
in `s`, `none` for `npos`. -/
def findSubstr (pat : List Char) : List Char → Option Nat
  | [] => if startsWith pat [] then some 0 else none
  | c :: rest =>
    if startsWith pat (c :: rest) then some 0
    else (findSubstr pat rest).map (· + 1)

/-- `data.find(c, start)` specialised to searching from the head: index of the
first occurrence of character `c`. -/
def findChar (c : Char) : List Char → Option Nat
  | [] => none
  | a :: rest => if a = c then some 0 else (findChar c rest).map (· + 1)

/-- One field extraction step of `DeserializeSignalMessage`: locate `pat`
(e.g. `"type":"`), move `start` past it, find the next `"` and take the
substring in between.  Returns `none` when either find yields `npos`, in
which case the C++ code leaves the field at its default. -/
def extractAfter (pat : List Char) (s : List Char) : Option (List Char) :=
  match findSubstr pat s with
  | none => none
  | some i =>
    let start := i + pat.length
    match findChar '"' (s.drop start) with
    | none => none
    | some j => some ((s.drop start).take j)

/-- Search pattern `"type":"` (the C++ literal `"\"type\":\""`, length 8). -/
def tyPat : List Char := strL "\"type\":\""

/-- Search pattern `"from":"` (length 8). -/
def frPat : List Char := strL "\"from\":\""

/-- Search pattern `"to":"` (length 6). -/
def toPat : List Char := strL "\"to\":\""

/-- The optional `,"sdp":"…"` fragment of `SerializeSignalMessage`. -/
def sdpPart (m : SignalMessage) : List Char :=
  match m.sdp with
  | some s => strL ",\"sdp\":\"" ++ s ++ ['"']
  | none => []

/-- The optional `,"candidate":{…}` fragment of `SerializeSignalMessage`,
with its nested optional `sdpMid` and `sdpMlineIndex` members. -/
def candidatePart (m : SignalMessage) : List Char :=
  match m.candidate with
  | none => []
  | some c =>
    strL ",\"candidate\":" ++ ['{'] ++ strL "\"candidate\":\"" ++ c ++ ['"']
    ++ (match m.sdpMid with
        | some mid => strL ",\"sdpMid\":\"" ++ mid ++ ['"']
        | none => [])
    ++ (match m.sdpMlineIndex with
        | some idx => strL ",\"sdpMlineIndex\":" ++ strL (toString idx)
        | none => [])
    ++ ['}']

/-- The optional `,"reason":"…"` fragment of `SerializeSignalMessage`. -/
def reasonPart (m : SignalMessage) : List Char :=
  match m.reason with
  | some r => strL ",\"reason\":\"" ++ r ++ ['"']
  | none => []

/-- `SerializeSignalMessage` of `signaling_message.cc`: naive concatenation of
`{"type":"…","from":"…","to":"…"` with the optional fragments and a closing
brace; no escaping of embedded quotes (as the C++ comment warns). -/
def serialize (m : SignalMessage) : List Char :=
  ['{'] ++ tyPat ++ typeToString m.type ++ strL "\","
  ++ strL "\"from\":\"" ++ m.from_ ++ strL "\","
  ++ strL "\"to\":\"" ++ m.to_ ++ ['"']
  ++ sdpPart m ++ candidatePart m ++ reasonPart m ++ ['}']

/-- `DeserializeSignalMessage` of `signaling_message.cc`: the fragile skeleton
parser.  A default-constructed message has each of `type`, `from`, `to`
overwritten only when the respective pattern and its closing quote are found;
the payload fields are never parsed ("Add similar simple logic for sdp,
candidate, etc." is an unimplemented comment).  No code path in the modelled
body throws, so the `catch`-and-`nullopt` branches are unreachable and the
function always returns a message. -/
def deserialize (data : List Char) : Option SignalMessage :=
  some
    { type :=
        match extractAfter tyPat data with
        | some t => stringToType t
        | none => SigType.UNKNOWN
      from_ := (extractAfter frPat data).getD []
      to_ := (extractAfter toPat data).getD []
      sdp := none
      candidate := none
      sdpMid := none
      sdpMlineIndex := none
      reason := none }

/-- Client record of `session_manager.js`: the `ClientInfo { id, targetId }`
value stored in `connectedClients` (JS `null` target is `none`). -/
structure ClientInfo where
  id : String
  targetId : Option String := none
deriving DecidableEq, Repr

/-- A relay-side wire message: the plain JS object
`{ type, from, to, ...payload }` handled by `session_manager.js`.  The nested
`data` object is flattened into its two used members (`data.targetVehicleId`
read by the `join` branch, `data.clientId` written into `join_request`);
`message` is the text member of `error` replies; the remaining payload
(sdp / candidate …) is opaque to the relay and carried verbatim in
`payload`. -/
structure RelayMsg where
  type : String
  from_ : String
  to_ : String := ""
  reason : Option String := none
  message : Option String := none
  dataTargetVehicleId : Option String := none
  dataClientId : Option String := none
  payload : Option String := none
deriving DecidableEq, Repr

/-- Relay process state: the two module-level `Map`s of `session_manager.js`
(`connectedClients : Map<WebSocket, ClientInfo>` and
`sessions : Map<string, WebSocket>`, insertion-ordered), plus the set of
sockets whose `readyState === OPEN` (consulted by `sendMessage`).
WebSocket objects are identified by a `Nat`. -/
structure RelayState where
  connectedClients : List (Nat × ClientInfo) := []
  sessions : List (String × Nat) := []
  openSockets : List Nat := []
deriving DecidableEq, Repr

/-- `sendMessage(ws, message)` of `session_manager.js`: the message is written
to the socket only when `ws.readyState === ws.OPEN`; otherwise it is dropped
with a warning.  Deliveries are reified as `(socket, message)` outputs. -/
def sendMessage (st : RelayState) (ws : Nat) (msg : RelayMsg) :
    List (Nat × RelayMsg) :=
  if ws ∈ st.openSockets then [(ws, msg)] else []

/-- `addClient(ws, clientId)` of `session_manager.js`: a connection already in
`connectedClients` (keyed by the WebSocket object, not by the client id) is
ignored; otherwise the client record is stored and the id is registered in
`sessions` — `Map.set` silently overwriting any previous link that claimed
the same id. -/
def addClient (st : RelayState) (ws : Nat) (clientId : String) : RelayState :=
  if containsKey st.connectedClients ws then st
  else
    { st with
      connectedClients := mapSet st.connectedClients ws { id := clientId }
      sessions := mapSet st.sessions clientId ws }

/-- First `sessions` entry whose stored WebSocket is `ws`: the
`for (const [clientId, clientWs] of sessions.entries())` search loop of
`removeClient` (which `break`s after the first hit). -/
def findSessionByWs (sessions : List (String × Nat)) (ws : Nat) : Option String :=
  match sessions with
  | [] => none
  | (cid, w) :: t => if w = ws then some cid else findSessionByWs t ws

/-- `removeClient(ws)` of `session_manager.js`: unknown sockets are ignored;
otherwise the record is removed from `connectedClients`, the first `sessions`
entry holding this socket is deleted, and — only when such an entry existed —
every remaining client whose `targetId` equals the departing client's id is
sent `{ type: 'leave', from: A, to: P, reason: 'Peer disconnected' }`.  The
notified clients' own `targetId` fields are left untouched (the JS comment
"Optional: Clear targetId for the other client" is not implemented). -/
def removeClient (st : RelayState) (ws : Nat) :
    RelayState × List (Nat × RelayMsg) :=
  match mapGet st.connectedClients ws with
  | none => (st, [])
  | some info =>
    let cc1 := mapDelete st.connectedClients ws
    match findSessionByWs st.sessions ws with
    | none => ({ st with connectedClients := cc1 }, [])
    | some cid =>
      let outs :=
        (cc1.filter (fun e => decide (e.2.targetId = some info.id))).flatMap
          (fun e =>
            sendMessage st e.1
              { type := "leave"
                from_ := info.id
                to_ := e.2.id
                reason := some "Peer disconnected" })
      ({ st with
          connectedClients := cc1
          sessions := mapDelete st.sessions cid },
       outs)

/-- JS truthiness of an optional string: `null`/`undefined` and the empty
string are falsy. -/
def jsTruthy : Option String → Bool
  | none => false
  | some s => !(s == "")

/-- JS `x || d` for an optional string with default `d`. -/
def jsOrElse (o : Option String) (d : String) : String :=
  if jsTruthy o then o.getD d else d

/-- `routeMessage(senderWs, message)` of `session_manager.js`.  Returns the
successor state and the list of `(socket, message)` deliveries attempted via
`sendMessage`.  Branch by branch: unknown sender → drop; `from` mismatching
the authenticated id → drop; `join` → record `targetId`, forward a
`join_request` to the target if registered and connected, else an `error`
reply and `targetId` cleared; `leave` → notify the recorded target (if any)
and clear `targetId`; `offer`/`answer`/`candidate` → forward verbatim to the
`to` recipient if registered and connected, else an `error` reply; anything
else → an `error` reply. -/
def routeMessage (st : RelayState) (senderWs : Nat) (msg : RelayMsg) :
    RelayState × List (Nat × RelayMsg) :=
  match mapGet st.connectedClients senderWs with
  | none => (st, [])
  | some info =>
    if msg.from_ ≠ info.id then (st, [])
    else if msg.type = "join" then
      if !jsTruthy msg.dataTargetVehicleId then (st, [])
      else
        let t := msg.dataTargetVehicleId.getD ""
        let st1 :=
          { st with
            connectedClients :=
              mapSet st.connectedClients senderWs { info with targetId := some t } }
        match mapGet st1.sessions t with
        | some targetWs =>
          if containsKey st1.connectedClients targetWs then
            (st1,
             sendMessage st1 targetWs
               { type := "join_request"
                 from_ := info.id
                 to_ := t
                 dataClientId := some info.id })
          else
            ({ st1 with
                connectedClients :=
                  mapSet st1.connectedClients senderWs { info with targetId := none } },
             sendMessage st1 senderWs
               { type := "error"
                 from_ := "server"
                 to_ := info.id
                 message := some ("Target vehicle " ++ t ++ " not found or offline.") })
        | none =>
          ({ st1 with
              connectedClients :=
                mapSet st1.connectedClients senderWs { info with targetId := none } },
           sendMessage st1 senderWs
             { type := "error"
               from_ := "server"
               to_ := info.id
               message := some ("Target vehicle " ++ t ++ " not found or offline.") })
    else if msg.type = "leave" then
      let outs :=
        match info.targetId with
        | some t =>
          if t = "" then []
          else
            match mapGet st.sessions t with
            | some targetWs =>
              if containsKey st.connectedClients targetWs then
                sendMessage st targetWs
                  { type := "leave"
                    from_ := info.id
                    to_ := t
                    reason := some (jsOrElse msg.reason "Peer left session") }
              else []
            | none => []
        | none => []
      ({ st with
          connectedClients :=
            mapSet st.connectedClients senderWs { info with targetId := none } },
       outs)
    else if msg.type = "offer" ∨ msg.type = "answer" ∨ msg.type = "candidate" then
      if msg.to_ = "" then (st, [])
      else
        match mapGet st.sessions msg.to_ with
        | some recipientWs =>
          if containsKey st.connectedClients recipientWs then
            (st, sendMessage st recipientWs msg)
          else
            (st,
             sendMessage st senderWs
               { type := "error"
                 from_ := "server"
                 to_ := info.id
                 message := some ("Recipient " ++ msg.to_ ++ " not found or offline.") })
        | none =>
          (st,
           sendMessage st senderWs
             { type := "error"
               from_ := "server"
               to_ := info.id
               message := some ("Recipient " ++ msg.to_ ++ " not found or offline.") })
    else
      (st,
       sendMessage st senderWs
         { type := "error"
           from_ := "server"
           to_ := info.id
           message := some ("Unknown message type '" ++ msg.type ++ "'.") })

/-- The `PeerConnectionState` enum of `i_peer_connection.h`. -/
inductive PeerConnectionState where
  | New
  | Connecting
  | Connected
  | Disconnected
  | Failed
  | Closed
deriving DecidableEq, Repr

/-- The `ChannelState` of a data channel.  Modelled from the spec: the
concrete `LibwebrtcPeerConnection` class instantiated by `WebrtcManagerImpl`
is not under `src/` (only the `IPeerConnection` interface and a differently
named skeleton are), and the spec fixes `ChannelState ∈ {Opening, Open,
Closed}`. -/
inductive ChannelState where
  | Opening
  | Open
  | Closed
deriving DecidableEq, Repr

/-- A peer-connection observable state as seen through the `IPeerConnection`
interface: the value `GetConnectionState()` returns, and the per-label data
channel states.  Modelled from the spec where the concrete class is missing
from `src/`. -/
structure PC where
  connState : PeerConnectionState := PeerConnectionState.New
  channels : List (List Char × ChannelState) := []
deriving DecidableEq, Repr

/-- `IPeerConnection::SendData(label, data)`.  Modelled from the spec: the
concrete implementation used by the manager is not under `src/`; per the
interface contract ("Returns true if message was successfully queued/sent,
false if channel is not ready or does not exist") and the spec's send rule
(`send` fails with `ChannelNotOpen` unless the labeled channel is `Open`),
the enqueue succeeds exactly when the labeled channel exists and is Open. -/
def sendData (pc : PC) (label : List Char) : Bool :=
  match mapGet pc.channels label with
  | some ChannelState.Open => true
  | _ => false

/-- The `AppState` enum of `webrtc_manager.h` (manager lifecycle). -/
inductive AppState where
  | Uninitialized
  | Initializing
  | Initialized
  | Running
  | Stopping
  | Stopped
deriving DecidableEq, Repr

/-- The mutable state of `WebrtcManagerImpl` that the embedded operations
touch: `state_`, `peerConnections_` (whose `unique_ptr` values may be null,
hence `Option PC`), `lastHeartbeatRxTime_` (steady-clock instants in
milliseconds, as `Int`) and `reconnectionAttemptCount_`.  Peer ids are
`List Char` like every other C++ string. -/
structure ManagerState where
  appState : AppState := AppState.Running
  peerConnections : List (List Char × Option PC) := []
  lastHeartbeatRxTime : List (List Char × Int) := []
  reconnectionAttemptCount : List (List Char × Int) := []
deriving DecidableEq, Repr

/-- Observable side effects of the manager operations: transport calls and
application callbacks, in program order.  `scheduleReconnect` is the
reconnection scheduling the spec describes for heartbeat loss; the code's
only call site for `attemptReconnection` is commented out and the function
body is an empty TODO stub, so no embedded operation ever emits it. -/
inductive MgrAction where
  | closePC (p : List Char)
  | invokePeerDisconnected (p reason : List Char)
  | scheduleReconnect (p : List Char)
  | setRemoteDescription (p sdpType sdp : List Char)
  | createAnswer (p : List Char)
  | createOffer (p : List Char)
  | addRemoteCandidate (p cand mid : List Char) (mlineIndex : Int)
  | invokePeerError (p msg : List Char)
  | invokeSignalingError (msg : List Char)
  | enqueueData (p label data : List Char)
deriving DecidableEq, Repr

/-- A freshly created peer connection, as produced by
`WebrtcManagerImpl::createPeerConnection` (skeleton: a default-constructed
instance reporting `PeerConnectionState::New` and no open channels). -/
def newPC : PC := {}

/-- `WebrtcManagerImpl::getOrCreatePeerConnection(peer_id)`: return the
existing entry's raw pointer (which is null when the stored `unique_ptr` is
null), or create, store and return a fresh peer connection. -/
def getOrCreatePeerConnection (st : ManagerState) (p : List Char) :
    ManagerState × Option PC :=
  match mapGet st.peerConnections p with
  | some pcOpt => (st, pcOpt)
  | none =>
    ({ st with peerConnections := mapSet st.peerConnections p (some newPC) },
     some newPC)

/-- `WebrtcManagerImpl::destroyPeerConnection(peer_id, reason)`: if the peer
is indexed, `Close()` the connection (when non-null), erase the peer from
`lastHeartbeatRxTime_` and `reconnectionAttemptCount_`, erase the index
entry, and invoke the application's disconnect callback with `reason`. -/
def destroyPeerConnection (st : ManagerState) (p reason : List Char) :
    ManagerState × List MgrAction :=
  match mapGet st.peerConnections p with
  | none => (st, [])
  | some pcOpt =>
    ({ st with
        peerConnections := mapDelete st.peerConnections p
        lastHeartbeatRxTime := mapDelete st.lastHeartbeatRxTime p
        reconnectionAttemptCount := mapDelete st.reconnectionAttemptCount p },
     (match pcOpt with
      | some _ => [MgrAction.closePC p]
      | none => []) ++ [MgrAction.invokePeerDisconnected p reason])

/-- `WebrtcManagerImpl::attemptReconnection(peer_id)`: the body is an
unimplemented TODO (only a log line); state is unchanged and nothing is
scheduled. -/
def attemptReconnection (st : ManagerState) (p : List Char) :
    ManagerState × List MgrAction :=
  (st, [])

/-- `WebrtcManagerImpl::handleReceivedHeartbeat(peer_id)`: when
`config_.heartbeat_interval_ms > 0`, store the current steady-clock instant
in `lastHeartbeatRxTime_[peer_id]`; otherwise do nothing.  `cfgT` is
`config_.heartbeat_interval_ms`, `now` the clock reading at the call. -/
def handleReceivedHeartbeat (cfgT : Int) (now : Int) (st : ManagerState)
    (p : List Char) : ManagerState :=
  if cfgT > 0 then
    { st with lastHeartbeatRxTime := mapSet st.lastHeartbeatRxTime p now }
  else st

/-- The peers `WebrtcManagerImpl::checkForHeartbeatLoss` collects into
`peers_to_disconnect`: entries of `lastHeartbeatRxTime_` whose peer is
indexed with a non-null connection in state `Connected` and whose elapsed
time `now − last_rx_time` exceeds `heartbeat_interval_ms * 3`. -/
def stalePeers (cfgT : Int) (now : Int) (st : ManagerState) : List (List Char) :=
  (st.lastHeartbeatRxTime.filter (fun e =>
    match mapGet st.peerConnections e.1 with
    | some (some pc) =>
      decide (pc.connState = PeerConnectionState.Connected) &&
        decide (now - e.2 > cfgT * 3)
    | _ => false)).map Prod.fst

/-- The second phase of `checkForHeartbeatLoss`: destroy each collected peer
with reason `"Heartbeat lost"`, threading the state. -/
def runDestroys : List (List Char) → ManagerState → ManagerState × List MgrAction
  | [], st => (st, [])
  | p :: ps, st =>
    let r1 := destroyPeerConnection st p (strL "Heartbeat lost")
    let r2 := runDestroys ps r1.1
    (r2.1, r1.2 ++ r2.2)

/-- `WebrtcManagerImpl::checkForHeartbeatLoss()`: a no-op when
`config_.heartbeat_interval_ms <= 0`; otherwise collect the stale Connected
peers and destroy each with reason `"Heartbeat lost"`.  The commented-out
`attemptReconnection` call is not executed. -/
def checkForHeartbeatLoss (cfgT : Int) (now : Int) (st : ManagerState) :
    ManagerState × List MgrAction :=
  if cfgT ≤ 0 then (st, [])
  else runDestroys (stalePeers cfgT now st) st

/-- `WebrtcManagerImpl::handleSignalingMessage(message)`: the inbound
signaling switch.  `cfgT`/`now` feed the HEARTBEAT branch's call to
`handleReceivedHeartbeat`. -/
def handleSignalingMessage (cfgT : Int) (now : Int) (st : ManagerState)
    (msg : SignalMessage) : ManagerState × List MgrAction :=
  let peer := msg.from_
  match msg.type with
  | SigType.JOIN => (st, [])
  | SigType.LEAVE =>
    match mapGet st.peerConnections peer with
    | some (some _) => (st, [MgrAction.closePC peer])
    | some none => (st, [])
    | none => (st, [])
  | SigType.OFFER =>
    let r := getOrCreatePeerConnection st peer
    match r.2, msg.sdp with
    | some _, some sdp =>
      (r.1, [MgrAction.setRemoteDescription peer (strL "offer") sdp,
             MgrAction.createAnswer peer])
    | _, _ =>
      (r.1, [MgrAction.invokePeerError peer
              (strL "Received OFFER with missing SDP or PC")])
  | SigType.ANSWER =>
    let r := getOrCreatePeerConnection st peer
    match r.2, msg.sdp with
    | some _, some sdp =>
      (r.1, [MgrAction.setRemoteDescription peer (strL "answer") sdp])
    | _, _ =>
      (r.1, [MgrAction.invokePeerError peer
              (strL "Received ANSWER with missing SDP or PC")])
  | SigType.CANDIDATE =>
    let r := getOrCreatePeerConnection st peer
    match r.2, msg.candidate, msg.sdpMid, msg.sdpMlineIndex with
    | some _, some cand, some mid, some idx =>
      (r.1, [MgrAction.addRemoteCandidate peer cand mid idx])
    | _, _, _, _ =>
      (r.1, [MgrAction.invokePeerError peer
              (strL "Received CANDIDATE with missing fields or PC")])
  | SigType.HEARTBEAT =>
    (handleReceivedHeartbeat cfgT now st peer, [])
  | SigType.UNKNOWN =>
    (st, [MgrAction.invokeSignalingError
           (strL "Received unknown signal message type from " ++ peer)])

/-- The per-peer loop body of
`WebrtcManagerImpl::sendDataChannelMessageToAllPeers`: call `SendData` on
every non-null connection, record an enqueue for each success, and OR the
successes together into `any_sent`. -/
def broadcastLoop (label data : List Char) :
    List (List Char × Option PC) → Bool × List MgrAction
  | [] => (false, [])
  | (p, pcOpt) :: rest =>
    let r := broadcastLoop label data rest
    match pcOpt with
    | none => r
    | some pc =>
      let sent := sendData pc label
      ((sent || r.1),
       (if sent then [MgrAction.enqueueData p label data] else []) ++ r.2)

/-- `WebrtcManagerImpl::sendDataChannelMessageToAllPeers(label, data)`:
returns `false` doing nothing unless the manager is `Running`; otherwise
iterates all peer connections, sending on each, and returns whether at least
one enqueue succeeded (`any_sent`). -/
def sendDataChannelMessageToAllPeers (st : ManagerState) (label data : List Char) :
    Bool × List MgrAction :=
  if st.appState ≠ AppState.Running then (false, [])
  else broadcastLoop label data st.peerConnections

/-- The trailing optional fragments of a serialized message (everything after
the closing quote of the `to` field). -/
def serTail (m : SignalMessage) : List Char :=
  sdpPart m ++ candidatePart m ++ reasonPart m ++ ['}']

/-- The serialized message re-associated into nested segments:
`{"type":"TAG","from":"FROM","to":"TO"` followed by the tail.  Equal to
`serialize` (proved below); this shape drives the parser analysis. -/
def wireShape (tag f t tail : List Char) : List Char :=
  '{' :: (tyPat ++ (tag ++ ('"' :: ',' ::
    (frPat ++ (f ++ ('"' :: ',' ::
      (toPat ++ (t ++ ('"' :: tail)))))))))

/-- Fold of `handleReceivedHeartbeat` over a chronological list of
`(peer, receipt time)` events. -/
def runReceipts (cfgT : Int) : List (List Char × Int) → ManagerState → ManagerState
  | [], st => st
  | e :: es, st => runReceipts cfgT es (handleReceivedHeartbeat cfgT e.2 st e.1)

theorem mapDelete_cons_self {κ α : Type} [DecidableEq κ]
    (e : κ × α) (t : List (κ × α)) (k : κ) (h : e.1 = k) :
    mapDelete (e :: t) k = mapDelete t k := by
  simp [mapDelete, List.filter_cons, h]

theorem mapDelete_cons_ne {κ α : Type} [DecidableEq κ]
    (e : κ × α) (t : List (κ × α)) (k : κ) (h : ¬ e.1 = k) :
    mapDelete (e :: t) k = e :: mapDelete t k := by
  simp [mapDelete, List.filter_cons, h]

theorem mapGet_mapSet_self {κ α : Type} [DecidableEq κ]
    (l : List (κ × α)) (k : κ) (v : α) : mapGet (mapSet l k v) k = some v := by
  induction l with
  | nil => simp [mapGet, mapSet]
  | cons e t ih =>
    by_cases h : e.1 = k
    · simp [mapSet, mapGet, h]
    · simp only [mapSet, h, if_neg, not_false_iff]
      simpa [mapGet, h] using ih

theorem mapGet_mapSet_ne {κ α : Type} [DecidableEq κ]
    (l : List (κ × α)) (k k' : κ) (v : α) (h : k' ≠ k) :
    mapGet (mapSet l k v) k' = mapGet l k' := by
  induction l with
  | nil => simp [mapGet, mapSet, Ne.symm h]
  | cons e t ih =>
    by_cases he : e.1 = k
    · subst he
      simp [mapSet, mapGet, Ne.symm h]
    · simp only [mapSet, he, if_neg, not_false_iff]
      by_cases he' : e.1 = k'
      · simp [mapGet, he']
      · simp [mapGet, he', ih]

theorem mapGet_mapDelete_self {κ α : Type} [DecidableEq κ]
    (l : List (κ × α)) (k : κ) : mapGet (mapDelete l k) k = none := by
  induction l with
  | nil => simp [mapGet, mapDelete]
  | cons e t ih =>
    by_cases h : e.1 = k
    · rw [mapDelete_cons_self e t k h]; exact ih
    · rw [mapDelete_cons_ne e t k h]
      simp [mapGet, h, ih]

theorem mapGet_mapDelete_ne {κ α : Type} [DecidableEq κ]
    (l : List (κ × α)) (k k' : κ) (h : k' ≠ k) :
    mapGet (mapDelete l k) k' = mapGet l k' := by
  induction l with
  | nil => simp [mapDelete]
  | cons e t ih =>
    by_cases he : e.1 = k
    · rw [mapDelete_cons_self e t k he]
      have : ¬ e.1 = k' := by rw [he]; exact Ne.symm h
      simp [mapGet, this, ih]
    · rw [mapDelete_cons_ne e t k he]
      by_cases he' : e.1 = k'
      · simp [mapGet, he']
      · simp [mapGet, he', ih]

theorem mem_keys_mapSet {κ α : Type} [DecidableEq κ]
    {l : List (κ × α)} {k k' : κ} {v : α}
    (h : k' ∈ (mapSet l k v).map Prod.fst) : k' = k ∨ k' ∈ l.map Prod.fst := by
  induction l with
  | nil =>
    simp [mapSet] at h
    exact Or.inl h
  | cons e t ih =>
    by_cases he : e.1 = k
    · simp only [mapSet, he, if_pos, List.map_cons, List.mem_cons] at h
      rcases h with h1 | h2
      · exact Or.inl h1
      · exact Or.inr (List.mem_cons_of_mem _ h2)
    · simp only [mapSet, he, if_neg, not_false_iff, List.map_cons, List.mem_cons] at h
      rcases h with h1 | h2
      · exact Or.inr (List.mem_cons.mpr (Or.inl h1))
      · rcases ih h2 with h3 | h4
        · exact Or.inl h3
        · exact Or.inr (List.mem_cons_of_mem _ h4)

theorem mapSet_keys_nodup {κ α : Type} [DecidableEq κ]
    (l : List (κ × α)) (k : κ) (v : α) (h : (l.map Prod.fst).Nodup) :
    ((mapSet l k v).map Prod.fst).Nodup := by
  induction l with
  | nil => simp [mapSet]
  | cons e t ih =>
    simp only [List.map_cons, List.nodup_cons] at h
    by_cases he : e.1 = k
    · subst he
      simpa [mapSet] using h
    · simp only [mapSet, he, if_neg, not_false_iff, List.map_cons, List.nodup_cons]
      refine ⟨fun hc => ?_, ih h.2⟩
      rcases mem_keys_mapSet hc with h1 | h2
      · exact he h1
      · exact h.1 h2

theorem mapGet_eq_some_of_mem {κ α : Type} [DecidableEq κ]
    {l : List (κ × α)} {k : κ} {v : α}
    (hnd : (l.map Prod.fst).Nodup) (hmem : (k, v) ∈ l) :
    mapGet l k = some v := by
  induction l with
  | nil => cases hmem
  | cons e t ih =>
    simp only [List.map_cons, List.nodup_cons] at hnd
    rcases List.mem_cons.mp hmem with h1 | h2
    · subst h1; simp [mapGet]
    · have hne : e.1 ≠ k := by
        intro hc
        exact hnd.1 (hc ▸ (List.mem_map.mpr ⟨(k, v), h2, rfl⟩))
      simp [mapGet, hne, ih hnd.2 h2]

theorem mem_of_mapGet_eq_some {κ α : Type} [DecidableEq κ]
    {l : List (κ × α)} {k : κ} {v : α} (h : mapGet l k = some v) : (k, v) ∈ l := by
  induction l with
  | nil => simp [mapGet] at h
  | cons e t ih =>
    by_cases he : e.1 = k
    · simp only [mapGet, he, if_pos] at h
      cases h
      have : e = (k, e.2) := by
        rw [← he]
      rw [← this]
      exact List.mem_cons_self e t
    · simp only [mapGet, he, if_neg, not_false_iff] at h
      exact List.mem_cons_of_mem _ (ih h)

theorem startsWith_append_self (pat r : List Char) :
    startsWith pat (pat ++ r) = true := by
  induction pat with
  | nil => rfl
  | cons p ps ih => simp [startsWith, List.cons_append, ih]

theorem findSubstr_of_startsWith (pat s : List Char)
    (h : startsWith pat s = true) : findSubstr pat s = some 0 := by
  cases s with
  | nil => simp [findSubstr, h]
  | cons c rest => simp [findSubstr, h]

theorem findSubstr_cons_neg (pat : List Char) (c : Char) (s : List Char)
    (h : startsWith pat (c :: s) = false) :
    findSubstr pat (c :: s) = (findSubstr pat s).map (· + 1) := by
  simp [findSubstr, h]

theorem findSubstr_append_skip (pat A B : List Char)
    (h : ∀ i, i < A.length → startsWith pat ((A ++ B).drop i) = false) :
    findSubstr pat (A ++ B) = (findSubstr pat B).map (· + A.length) := by
  induction A with
  | nil =>
    cases hB : findSubstr pat B <;> simp [hB]
  | cons c A' ih =>
    have h0 : startsWith pat (c :: (A' ++ B)) = false := by
      have := h 0 (by simp)
      simpa using this
    rw [List.cons_append, findSubstr_cons_neg pat c (A' ++ B) h0]
    rw [ih (fun i hi => by
      have := h (i + 1) (by simp; omega)
      simpa [List.drop_succ_cons] using this)]
    cases findSubstr pat B with
    | none => simp
    | some k => simp [List.length_cons]; omega

theorem startsWith_quotefree_skip (pat' A B : List Char) (hq : '"' ∉ A) :
    ∀ i, i < A.length → startsWith ('"' :: pat') ((A ++ B).drop i) = false := by
  intro i hi
  have hAi : A[i] ≠ '"' := fun hc => hq (hc ▸ List.getElem_mem hi)
  rw [List.drop_append_of_le_length (le_of_lt hi),
      List.drop_eq_getElem_cons hi, List.cons_append]
  simp [startsWith, beq_eq_false_iff_ne.mpr (Ne.symm hAi)]

theorem findChar_quote : ∀ (l r : List Char), '"' ∉ l →
    findChar '"' (l ++ '"' :: r) = some l.length
  | [], r, _ => by simp [findChar]
  | a :: t, r, hq => by
    have h1 : ¬ a = '"' := fun hc => hq (by simp [hc])
    have h2 := findChar_quote t r (fun hc => hq (List.mem_cons_of_mem _ hc))
    simp [findChar, h1, h2]

theorem startsWith_quote2_false (p2 : Char) (ps : List Char) (c : Char)
    (rest : List Char) (h : p2 ≠ c) :
    startsWith ('"' :: p2 :: ps) ('"' :: c :: rest) = false := by
  simp [startsWith, beq_eq_false_iff_ne.mpr h]

theorem toPat_chars : toPat = ['"', 't', 'o', '"', ':', '"'] := rfl

theorem frPat_chars : frPat = ['"', 'f', 'r', 'o', 'm', '"', ':', '"'] := rfl

theorem tyPat_chars : tyPat = ['"', 't', 'y', 'p', 'e', '"', ':', '"'] := rfl

theorem toPat_at_value_quote_false (f X : List Char) (hf : '"' ∉ f) :
    startsWith toPat ('"' :: (f ++ ('"' :: ',' :: X))) = false := by
  match f, hf with
  | [], _ => rfl
  | [a], _ =>
    have h1 : (('o' : Char) == '"') = false := rfl
    simp [toPat_chars, startsWith, List.cons_append, h1]
  | [a, b], _ =>
    have h1 : ((':' : Char) == ',') = false := rfl
    simp [toPat_chars, startsWith, List.cons_append, h1]
  | a :: b :: c :: rest, hf =>
    have hc : c ≠ '"' := fun h => hf (by simp [h])
    have h1 : (('"' : Char) == c) = false := beq_eq_false_iff_ne.mpr (Ne.symm hc)
    simp [toPat_chars, startsWith, List.cons_append, h1]

theorem extract_tyPat (tag f t tail : List Char) (htag : '"' ∉ tag) :
    extractAfter tyPat (wireShape tag f t tail) = some tag := by
  set R : List Char :=
    tag ++ ('"' :: ',' ::
      (frPat ++ (f ++ ('"' :: ',' ::
        (toPat ++ (t ++ ('"' :: tail))))))) with hR
  have hw : wireShape tag f t tail = '{' :: (tyPat ++ R) := rfl
  have h0 : startsWith tyPat ('{' :: (tyPat ++ R)) = false := rfl
  have h1 : findSubstr tyPat ('{' :: (tyPat ++ R)) = some 1 := by
    rw [findSubstr_cons_neg _ _ _ h0,
        findSubstr_of_startsWith _ _ (startsWith_append_self tyPat R)]
    rfl
  have hdrop : ('{' :: (tyPat ++ R)).drop (1 + tyPat.length) = R := rfl
  have hfc : findChar '"' R = some tag.length := by
    rw [hR]
    exact findChar_quote tag _ htag
  rw [hw]
  unfold extractAfter
  rw [h1]
  simp only [hdrop, hfc, hR]
  rw [List.take_left]

theorem skipS1_fr (c : Char) (cs X : List Char) (hcf : c ≠ 'f') :
    ∀ i, i < ('{' :: tyPat).length →
      startsWith frPat ((('{' :: tyPat) ++ ((c :: cs) ++ X)).drop i) = false := by
  intro i hi
  have hi9 : i < 9 := hi
  interval_cases i
  · rfl
  · rfl
  · rfl
  · rfl
  · rfl
  · rfl
  · rfl
  · rfl
  · exact startsWith_quote2_false 'f' _ c _ (Ne.symm hcf)

theorem skipC2_fr (X : List Char) :
    ∀ i, i < (['"', ','] : List Char).length →
      startsWith frPat ((['"', ','] ++ (frPat ++ X)).drop i) = false := by
  intro i hi
  have hi2 : i < 2 := hi
  interval_cases i
  · rfl
  · rfl

theorem skip_quotefree_fr (A B : List Char) (hq : '"' ∉ A) :
    ∀ i, i < A.length → startsWith frPat ((A ++ B).drop i) = false :=
  startsWith_quotefree_skip _ A B hq

theorem extract_frPat (tag f t tail : List Char) (htag : '"' ∉ tag)
    (hhead : ∃ c cs, tag = c :: cs ∧ c ≠ 'f') (hf : '"' ∉ f) :
    extractAfter frPat (wireShape tag f t tail) = some f := by
  obtain ⟨c, cs, rfl, hcf⟩ := hhead
  have h9 : ('{' :: tyPat).length = 9 := rfl
  have h8 : frPat.length = 8 := rfl
  have hfind : findSubstr frPat (wireShape (c :: cs) f t tail)
      = some ((c :: cs).length + 11) := by
    show findSubstr frPat
      (('{' :: tyPat) ++ ((c :: cs) ++ (['"', ','] ++
        (frPat ++ (f ++ ('"' :: ',' ::
          (toPat ++ (t ++ ('"' :: tail))))))))) = _
    rw [findSubstr_append_skip _ _ _ (skipS1_fr c cs _ hcf),
        findSubstr_append_skip _ _ _ (skip_quotefree_fr (c :: cs) _ htag),
        findSubstr_append_skip _ _ _ (skipC2_fr _),
        findSubstr_of_startsWith _ _ (startsWith_append_self frPat _)]
    have h2 : ((['"', ','] : List Char)).length = 2 := rfl
    simp only [Option.map_some', h9, h2, Option.some.injEq]
    omega
  have hdrop : (wireShape (c :: cs) f t tail).drop
      ((c :: cs).length + 11 + frPat.length)
      = f ++ ('"' :: ',' :: (toPat ++ (t ++ ('"' :: tail)))) := by
    have hsplit : wireShape (c :: cs) f t tail =
        (('{' :: tyPat) ++ ((c :: cs) ++ (['"', ','] ++ frPat))) ++
          (f ++ ('"' :: ',' :: (toPat ++ (t ++ ('"' :: tail))))) := by
      simp [wireShape, List.append_assoc]
    have hty : tyPat.length = 8 := rfl
    have hPlen : ((('{' :: tyPat) ++ ((c :: cs) ++ (['"', ','] ++ frPat)))).length
        = (c :: cs).length + 11 + frPat.length := by
      simp only [List.length_append, List.length_cons, List.length_nil, hty, h8]
      omega
    rw [hsplit, List.drop_left' hPlen]
  unfold extractAfter
  rw [hfind]
  simp only [hdrop]
  rw [findChar_quote f _ hf]
  simp only [Option.some.injEq]
  rw [List.take_left]

theorem skipS1_to (c : Char) (cs X : List Char) (hct : c ≠ 't') :
    ∀ i, i < ('{' :: tyPat).length →
      startsWith toPat ((('{' :: tyPat) ++ ((c :: cs) ++ X)).drop i) = false := by
  intro i hi
  have hi9 : i < 9 := hi
  interval_cases i
  · rfl
  · rfl
  · rfl
  · rfl
  · rfl
  · rfl
  · rfl
  · rfl
  · exact startsWith_quote2_false 't' _ c _ (Ne.symm hct)

theorem skipC2_to (X : List Char) :
    ∀ i, i < (['"', ','] : List Char).length →
      startsWith toPat ((['"', ','] ++ (frPat ++ X)).drop i) = false := by
  intro i hi
  have hi2 : i < 2 := hi
  interval_cases i
  · rfl
  · rfl

theorem skipFr_to (f X : List Char) (hf : '"' ∉ f) :
    ∀ i, i < frPat.length →
      startsWith toPat ((frPat ++ (f ++ (['"', ','] ++ X))).drop i) = false := by
  intro i hi
  have hi8 : i < 8 := hi
  interval_cases i
  · rfl
  · rfl
  · rfl
  · rfl
  · rfl
  · rfl
  · rfl
  · exact toPat_at_value_quote_false f X hf

theorem skipC2b_to (X : List Char) :
    ∀ i, i < (['"', ','] : List Char).length →
      startsWith toPat ((['"', ','] ++ (toPat ++ X)).drop i) = false := by
  intro i hi
  have hi2 : i < 2 := hi
  interval_cases i
  · rfl
  · rfl

theorem skip_quotefree_to (A B : List Char) (hq : '"' ∉ A) :
    ∀ i, i < A.length → startsWith toPat ((A ++ B).drop i) = false :=
  startsWith_quotefree_skip _ A B hq

theorem extract_toPat (tag f t tail : List Char) (htag : '"' ∉ tag)
    (hhead : ∃ c cs, tag = c :: cs ∧ c ≠ 't') (hf : '"' ∉ f) (ht : '"' ∉ t) :
    extractAfter toPat (wireShape tag f t tail) = some t := by
  obtain ⟨c, cs, rfl, hct⟩ := hhead
  have h9 : ('{' :: tyPat).length = 9 := rfl
  have h6 : toPat.length = 6 := rfl
  have h8 : frPat.length = 8 := rfl
  have h2 : ((['"', ','] : List Char)).length = 2 := rfl
  have hfind : findSubstr toPat (wireShape (c :: cs) f t tail)
      = some ((c :: cs).length + f.length + 21) := by
    show findSubstr toPat
      (('{' :: tyPat) ++ ((c :: cs) ++ (['"', ','] ++
        (frPat ++ (f ++ (['"', ','] ++
          (toPat ++ (t ++ ('"' :: tail))))))))) = _
    rw [findSubstr_append_skip _ _ _ (skipS1_to c cs _ hct),
        findSubstr_append_skip _ _ _ (skip_quotefree_to (c :: cs) _ htag),
        findSubstr_append_skip _ _ _ (skipC2_to _),
        findSubstr_append_skip _ _ _ (skipFr_to f _ hf),
        findSubstr_append_skip _ _ _ (skip_quotefree_to f _ hf),
        findSubstr_append_skip _ _ _ (skipC2b_to _),
        findSubstr_of_startsWith _ _ (startsWith_append_self toPat _)]
    simp only [Option.map_some', h9, h2, h8, Option.some.injEq]
    omega
  have hdrop : (wireShape (c :: cs) f t tail).drop
      ((c :: cs).length + f.length + 21 + toPat.length)
      = t ++ ('"' :: tail) := by
    have hsplit : wireShape (c :: cs) f t tail =
        (('{' :: tyPat) ++ ((c :: cs) ++ (['"', ','] ++
          (frPat ++ (f ++ (['"', ','] ++ toPat)))))) ++
          (t ++ ('"' :: tail)) := by
      simp [wireShape, List.append_assoc]
    have hty : tyPat.length = 8 := rfl
    have hPlen : ((('{' :: tyPat) ++ ((c :: cs) ++ (['"', ','] ++
          (frPat ++ (f ++ (['"', ','] ++ toPat))))))).length
        = (c :: cs).length + f.length + 21 + toPat.length := by
      simp only [List.length_append, List.length_cons, List.length_nil, hty, h8, h6]
      omega
    rw [hsplit, List.drop_left' hPlen]
  unfold extractAfter
  rw [hfind]
  simp only [hdrop]
  rw [findChar_quote t _ ht]
  simp only [Option.some.injEq]
  rw [List.take_left]

theorem serialize_shape (m : SignalMessage) :
    serialize m = wireShape (typeToString m.type) m.from_ m.to_ (serTail m) := by
  simp only [serialize, wireShape, serTail, List.append_assoc]
  rfl

theorem deserialize_wireShape (tag f t tail : List Char) (htag : '"' ∉ tag)
    (hheadf : ∃ c cs, tag = c :: cs ∧ c ≠ 'f')
    (hheadt : ∃ c cs, tag = c :: cs ∧ c ≠ 't')
    (hf : '"' ∉ f) (ht : '"' ∉ t) :
    deserialize (wireShape tag f t tail)
      = some { type := stringToType tag, from_ := f, to_ := t } := by
  unfold deserialize
  rw [extract_tyPat tag f t tail htag,
      extract_frPat tag f t tail htag hheadf hf,
      extract_toPat tag f t tail htag hheadt hf ht]
  rfl

theorem mapGet_eq_none_of_not_mem_keys {κ α : Type} [DecidableEq κ]
    {l : List (κ × α)} {k : κ} (h : k ∉ l.map Prod.fst) : mapGet l k = none := by
  induction l with
  | nil => rfl
  | cons e t ih =>
    simp only [List.map_cons, List.mem_cons, not_or] at h
    have h1 : ¬ e.1 = k := fun hc => h.1 hc.symm
    simp [mapGet, h1, ih h.2]

theorem mem_mapSet {κ α : Type} [DecidableEq κ]
    {l : List (κ × α)} {k : κ} {v : α} {e : κ × α}
    (h : e ∈ mapSet l k v) : e = (k, v) ∨ e ∈ l := by
  induction l with
  | nil => simpa [mapSet] using h
  | cons e' t ih =>
    by_cases he : e'.1 = k
    · simp only [mapSet, he, if_pos, List.mem_cons] at h
      rcases h with h1 | h2
      · exact Or.inl h1
      · exact Or.inr (List.mem_cons_of_mem _ h2)
    · simp only [mapSet, he, if_neg, not_false_iff, List.mem_cons] at h
      rcases h with h1 | h2
      · exact Or.inr (List.mem_cons.mpr (Or.inl h1))
      · rcases ih h2 with h3 | h4
        · exact Or.inl h3
        · exact Or.inr (List.mem_cons_of_mem _ h4)

theorem destroy_pcs (st : ManagerState) (p reason q : List Char) :
    mapGet (destroyPeerConnection st p reason).1.peerConnections q
      = if q = p then none else mapGet st.peerConnections q := by
  unfold destroyPeerConnection
  cases hm : mapGet st.peerConnections p with
  | none =>
    by_cases hq : q = p
    · subst hq; simp [hm]
    · simp [hq]
  | some pcOpt =>
    by_cases hq : q = p
    · subst hq; simp [mapGet_mapDelete_self]
    · simp [hq, mapGet_mapDelete_ne _ _ _ hq]

theorem destroy_actions (st : ManagerState) (p reason : List Char) (pc : PC)
    (h : mapGet st.peerConnections p = some (some pc)) :
    (destroyPeerConnection st p reason).2
      = [MgrAction.closePC p, MgrAction.invokePeerDisconnected p reason] := by
  unfold destroyPeerConnection
  rw [h]
  rfl

theorem destroy_no_reconnect (st : ManagerState) (p reason q : List Char) :
    MgrAction.scheduleReconnect q ∉ (destroyPeerConnection st p reason).2 := by
  unfold destroyPeerConnection
  cases hm : mapGet st.peerConnections p with
  | none => simp
  | some pcOpt => cases pcOpt <;> simp

theorem runDestroys_no_reconnect (ps : List (List Char)) (st : ManagerState)
    (q : List Char) :
    MgrAction.scheduleReconnect q ∉ (runDestroys ps st).2 := by
  induction ps generalizing st with
  | nil => simp [runDestroys]
  | cons p ps ih =>
    simp only [runDestroys, List.mem_append, not_or]
    exact ⟨destroy_no_reconnect st p _ q, ih _⟩

theorem runDestroys_none_preserved (ps : List (List Char)) (st : ManagerState)
    (p : List Char) (h : mapGet st.peerConnections p = none) :
    mapGet (runDestroys ps st).1.peerConnections p = none := by
  induction ps generalizing st with
  | nil => simpa [runDestroys] using h
  | cons q ps ih =>
    simp only [runDestroys]
    apply ih
    rw [destroy_pcs]
    by_cases hq : p = q <;> simp [hq, h]

theorem runDestroys_hits (ps : List (List Char)) (st : ManagerState)
    (p : List Char) (pc : PC) (hmem : p ∈ ps)
    (h : mapGet st.peerConnections p = some (some pc)) :
    MgrAction.closePC p ∈ (runDestroys ps st).2 ∧
    MgrAction.invokePeerDisconnected p (strL "Heartbeat lost") ∈ (runDestroys ps st).2 ∧
    mapGet (runDestroys ps st).1.peerConnections p = none := by
  induction ps generalizing st with
  | nil => cases hmem
  | cons q ps ih =>
    by_cases hq : p = q
    · subst hq
      have hact := destroy_actions st p (strL "Heartbeat lost") pc h
      have hgone : mapGet (destroyPeerConnection st p (strL "Heartbeat lost")).1.peerConnections p = none := by
        rw [destroy_pcs]; simp
      refine ⟨?_, ?_, ?_⟩
      · simp [runDestroys, hact]
      · simp [runDestroys, hact]
      · simp only [runDestroys]
        exact runDestroys_none_preserved ps _ p hgone
    · have hmem' : p ∈ ps := by
        rcases List.mem_cons.mp hmem with h1 | h2
        · exact absurd h1 hq
        · exact h2
      have hpres : mapGet (destroyPeerConnection st q (strL "Heartbeat lost")).1.peerConnections p
          = some (some pc) := by
        rw [destroy_pcs]; simp [hq, h]
      have := ih _ hmem' hpres
      refine ⟨?_, ?_, ?_⟩
      · simp only [runDestroys, List.mem_append]
        exact Or.inr this.1
      · simp only [runDestroys, List.mem_append]
        exact Or.inr this.2.1
      · simp only [runDestroys]
        exact this.2.2

theorem mem_stalePeers (cfgT now : Int) (st : ManagerState) (p : List Char)
    (last : Int) (pc : PC)
    (hlast : mapGet st.lastHeartbeatRxTime p = some last)
    (hpc : mapGet st.peerConnections p = some (some pc))
    (hconn : pc.connState = PeerConnectionState.Connected)
    (hstale : now - last > cfgT * 3) :
    p ∈ stalePeers cfgT now st := by
  have hmem : (p, last) ∈ st.lastHeartbeatRxTime := mem_of_mapGet_eq_some hlast
  unfold stalePeers
  apply List.mem_map.mpr
  refine ⟨(p, last), ?_, rfl⟩
  apply List.mem_filter.mpr
  refine ⟨hmem, ?_⟩
  simp only [hpc, hconn, hstale]
  simp

theorem broadcastLoop_enqueue_iff (label data : List Char)
    (pcs : List (List Char × Option PC)) (p : List Char)
    (hnd : (pcs.map Prod.fst).Nodup) :
    MgrAction.enqueueData p label data ∈ (broadcastLoop label data pcs).2 ↔
      ∃ pc, mapGet pcs p = some (some pc) ∧ sendData pc label = true := by
  induction pcs with
  | nil => simp [broadcastLoop, mapGet]
  | cons e rest ih =>
    obtain ⟨q, pcOpt⟩ := e
    simp only [List.map_cons, List.nodup_cons] at hnd
    have ihr := ih hnd.2
    by_cases hq : q = p
    · subst hq
      have hnone : mapGet rest q = (none : Option (Option PC)) :=
        mapGet_eq_none_of_not_mem_keys hnd.1
      cases pcOpt with
      | none => simp [broadcastLoop, mapGet, ihr, hnone]
      | some pc =>
        cases hs : sendData pc label with
        | true => simp [broadcastLoop, mapGet, hs]
        | false => simp [broadcastLoop, mapGet, hs, ihr, hnone]
    · have hqp : ¬ p = q := fun h => hq h.symm
      have hmapeq : mapGet ((q, pcOpt) :: rest) p = mapGet rest p := by
        simp [mapGet, hq]
      cases pcOpt with
      | none => simp [broadcastLoop, hmapeq, ihr]
      | some pc =>
        cases hs : sendData pc label with
        | true => simp [broadcastLoop, hs, hmapeq, ihr, hqp]
        | false => simp [broadcastLoop, hs, hmapeq, ihr]

theorem broadcastLoop_ret_iff (label data : List Char)
    (pcs : List (List Char × Option PC)) :
    (broadcastLoop label data pcs).1 = true ↔ (broadcastLoop label data pcs).2 ≠ [] := by
  induction pcs with
  | nil => simp [broadcastLoop]
  | cons e rest ih =>
    obtain ⟨q, pcOpt⟩ := e
    cases pcOpt with
    | none => simpa [broadcastLoop] using ih
    | some pc =>
      simp only [broadcastLoop]
      cases hs : sendData pc label with
      | true => simp
      | false => simpa using ih

theorem hrh_get (cfgT now : Int) (st : ManagerState) (p q : List Char) :
    mapGet (handleReceivedHeartbeat cfgT now st p).lastHeartbeatRxTime q
      = if cfgT > 0 then
          (if q = p then some now else mapGet st.lastHeartbeatRxTime q)
        else mapGet st.lastHeartbeatRxTime q := by
  unfold handleReceivedHeartbeat
  by_cases hT : cfgT > 0
  · by_cases hq : q = p
    · subst hq; simp [hT, mapGet_mapSet_self]
    · simp [hT, hq, mapGet_mapSet_ne _ _ _ _ hq]
  · simp [hT]

theorem runReceipts_lower (cfgT : Int) (es : List (List Char × Int))
    (st : ManagerState) (p : List Char) (old : Int)
    (hpair : es.Pairwise (fun a b => a.2 ≤ b.2))
    (hinit : ∀ e0 ∈ st.lastHeartbeatRxTime, ∀ e ∈ es, e0.2 ≤ e.2)
    (hold : mapGet st.lastHeartbeatRxTime p = some old) :
    ∀ newv, mapGet (runReceipts cfgT es st).lastHeartbeatRxTime p = some newv →
      old ≤ newv := by
  induction es generalizing st old with
  | nil =>
    intro newv hnew
    simp only [runReceipts] at hnew
    rw [hold] at hnew
    cases hnew
    exact le_refl _
  | cons e es ih =>
    intro newv hnew
    simp only [runReceipts] at hnew
    set st1 := handleReceivedHeartbeat cfgT e.2 st e.1 with hst1
    have hpair' : es.Pairwise (fun a b => a.2 ≤ b.2) := hpair.of_cons
    have hhead : ∀ b ∈ es, e.2 ≤ b.2 := by
      intro b hb
      exact (List.pairwise_cons.mp hpair).1 b hb
    have hinit1 : ∀ e0 ∈ st1.lastHeartbeatRxTime, ∀ e' ∈ es, e0.2 ≤ e'.2 := by
      intro e0 he0 e' he'
      rw [hst1] at he0
      unfold handleReceivedHeartbeat at he0
      by_cases hT : cfgT > 0
      · simp only [hT, if_pos] at he0
        rcases mem_mapSet he0 with h1 | h2
        · rw [h1]
          exact hhead e' he'
        · exact hinit e0 h2 e' (List.mem_cons_of_mem _ he')
      · simp only [hT, if_neg, not_false_iff] at he0
        exact hinit e0 he0 e' (List.mem_cons_of_mem _ he')
    by_cases hT : cfgT > 0
    · by_cases hq : p = e.1
      · have hmid : mapGet st1.lastHeartbeatRxTime p = some e.2 := by
          rw [hst1, hrh_get]
          simp [hT, hq]
        have hstep : old ≤ e.2 :=
          hinit (p, old) (mem_of_mapGet_eq_some hold) e (List.mem_cons_self _ _)
        exact le_trans hstep (ih st1 e.2 hpair' hinit1 hmid newv hnew)
      · have hmid : mapGet st1.lastHeartbeatRxTime p = some old := by
          rw [hst1, hrh_get]
          simp [hT, hq, hold]
        exact ih st1 old hpair' hinit1 hmid newv hnew
    · have hmid : mapGet st1.lastHeartbeatRxTime p = some old := by
        rw [hst1, hrh_get]
        simp [hT, hold]
      exact ih st1 old hpair' hinit1 hmid newv hnew

/-- C9: for every `SignalMessage` whose type is one of JOIN, LEAVE, OFFER,
ANSWER, CANDIDATE and whose `from` and `to` fields contain no double-quote
characters, `DeserializeSignalMessage (SerializeSignalMessage m)` succeeds
and yields a message whose type, from and to equal those of `m`. -/
theorem serialize_roundtrip_routing_fields (m : SignalMessage)
    (hty : m.type = SigType.JOIN ∨ m.type = SigType.LEAVE ∨
      m.type = SigType.OFFER ∨ m.type = SigType.ANSWER ∨
      m.type = SigType.CANDIDATE)
    (hf : '"' ∉ m.from_) (ht : '"' ∉ m.to_) :
    deserialize (serialize m)
      = some { type := m.type, from_ := m.from_, to_ := m.to_ } := by
  rw [serialize_shape]
  rcases hty with h | h | h | h | h
  · rw [h, show typeToString SigType.JOIN = strL "join" from rfl,
        deserialize_wireShape (strL "join") m.from_ m.to_ (serTail m)
          (by decide) ⟨'j', strL "oin", rfl, by decide⟩
          ⟨'j', strL "oin", rfl, by decide⟩ hf ht,
        show stringToType (strL "join") = SigType.JOIN from by decide]
  · rw [h, show typeToString SigType.LEAVE = strL "leave" from rfl,
        deserialize_wireShape (strL "leave") m.from_ m.to_ (serTail m)
          (by decide) ⟨'l', strL "eave", rfl, by decide⟩
          ⟨'l', strL "eave", rfl, by decide⟩ hf ht,
        show stringToType (strL "leave") = SigType.LEAVE from by decide]
  · rw [h, show typeToString SigType.OFFER = strL "offer" from rfl,
        deserialize_wireShape (strL "offer") m.from_ m.to_ (serTail m)
          (by decide) ⟨'o', strL "ffer", rfl, by decide⟩
          ⟨'o', strL "ffer", rfl, by decide⟩ hf ht,
        show stringToType (strL "offer") = SigType.OFFER from by decide]
  · rw [h, show typeToString SigType.ANSWER = strL "answer" from rfl,
        deserialize_wireShape (strL "answer") m.from_ m.to_ (serTail m)
          (by decide) ⟨'a', strL "nswer", rfl, by decide⟩
          ⟨'a', strL "nswer", rfl, by decide⟩ hf ht,
        show stringToType (strL "answer") = SigType.ANSWER from by decide]
  · rw [h, show typeToString SigType.CANDIDATE = strL "candidate" from rfl,
        deserialize_wireShape (strL "candidate") m.from_ m.to_ (serTail m)
          (by decide) ⟨'c', strL "andidate", rfl, by decide⟩
          ⟨'c', strL "andidate", rfl, by decide⟩ hf ht,
        show stringToType (strL "candidate") = SigType.CANDIDATE from by decide]

/-- Witness for C9: the round trip at a concrete JOIN message. -/
theorem serialize_roundtrip_routing_fields_witness :
    deserialize (serialize { type := SigType.JOIN, from_ := strL "cockpit_1", to_ := strL "vehicle_7" })
      = some { type := SigType.JOIN, from_ := strL "cockpit_1", to_ := strL "vehicle_7" } :=
  serialize_roundtrip_routing_fields
    { type := SigType.JOIN, from_ := strL "cockpit_1", to_ := strL "vehicle_7" }
    (Or.inl rfl) (by decide) (by decide)

/-- C10: `DeserializeSignalMessage` returns a message for every input string:
when the substring `"type":"` is absent the type is `UNKNOWN`, and absent
`from`/`to` patterns leave those fields empty; no input is rejected as a
parse failure. -/
theorem deserialize_total_defaults (s : List Char) :
    ∃ m, deserialize s = some m ∧
      (findSubstr tyPat s = none → m.type = SigType.UNKNOWN) ∧
      (findSubstr frPat s = none → m.from_ = []) ∧
      (findSubstr toPat s = none → m.to_ = []) := by
  refine ⟨_, rfl, ?_, ?_, ?_⟩ <;> intro h <;> simp [extractAfter, h]

/-- Witness for C10 at a concrete non-JSON input. -/
theorem deserialize_total_defaults_witness :
    ∃ m, deserialize (strL "hello, not json") = some m ∧
      (findSubstr tyPat (strL "hello, not json") = none → m.type = SigType.UNKNOWN) ∧
      (findSubstr frPat (strL "hello, not json") = none → m.from_ = []) ∧
      (findSubstr toPat (strL "hello, not json") = none → m.to_ = []) :=
  deserialize_total_defaults (strL "hello, not json")

/-- Counterexample for C4: the client's tag map does not contain `heartbeat`
(nor `join_request`, `error`); deserializing a heartbeat wire message yields
kind UNKNOWN, not Heartbeat. -/
theorem heartbeat_tag_maps_to_unknown_cex :
    stringToType (strL "heartbeat") = SigType.UNKNOWN ∧
    SigType.UNKNOWN ≠ SigType.HEARTBEAT ∧
    deserialize (['{'] ++ strL "\"type\":\"heartbeat\",\"from\":\"v\",\"to\":\"c\"" ++ ['}'])
      = some { type := SigType.UNKNOWN, from_ := strL "v", to_ := strL "c" } ∧
    stringToType (strL "join_request") = SigType.UNKNOWN ∧
    stringToType (strL "error") = SigType.UNKNOWN := by
  decide

/-- C4 (amended): deserialization maps exactly the tags `join, leave, offer,
answer, candidate` to their kinds; `heartbeat`, `join_request` and `error`
fall through to UNKNOWN.  When an envelope that already carries kind
Heartbeat reaches the manager and heartbeat is enabled, it is forwarded to
the liveness controller: the peer's last-heartbeat-receipt time becomes the
current clock reading and no other action is taken. -/
theorem tag_mapping_and_heartbeat_forward :
    (stringToType (strL "join") = SigType.JOIN ∧
     stringToType (strL "leave") = SigType.LEAVE ∧
     stringToType (strL "offer") = SigType.OFFER ∧
     stringToType (strL "answer") = SigType.ANSWER ∧
     stringToType (strL "candidate") = SigType.CANDIDATE ∧
     stringToType (strL "heartbeat") = SigType.UNKNOWN ∧
     stringToType (strL "join_request") = SigType.UNKNOWN ∧
     stringToType (strL "error") = SigType.UNKNOWN) ∧
    (∀ (cfgT now : Int) (st : ManagerState) (msg : SignalMessage),
      msg.type = SigType.HEARTBEAT → 0 < cfgT →
      (handleSignalingMessage cfgT now st msg).2 = [] ∧
      mapGet (handleSignalingMessage cfgT now st msg).1.lastHeartbeatRxTime
        msg.from_ = some now) := by
  constructor
  · decide
  · intro cfgT now st msg hty hT
    have h1 : handleSignalingMessage cfgT now st msg
        = (handleReceivedHeartbeat cfgT now st msg.from_, []) := by
      unfold handleSignalingMessage
      rw [hty]
    rw [h1]
    refine ⟨rfl, ?_⟩
    rw [hrh_get]
    simp [hT]

/-- Witness for C4 at a concrete heartbeat envelope. -/
theorem tag_mapping_and_heartbeat_forward_witness :
    (handleSignalingMessage 5000 42 {} { type := SigType.HEARTBEAT, from_ := strL "v" }).2 = [] ∧
    mapGet (handleSignalingMessage 5000 42 {}
        { type := SigType.HEARTBEAT, from_ := strL "v" }).1.lastHeartbeatRxTime
      (strL "v") = some 42 :=
  tag_mapping_and_heartbeat_forward.2 5000 42 {}
    { type := SigType.HEARTBEAT, from_ := strL "v" } rfl (by decide)

/-- Counterexample for C1: with `T = 5000`, peer `v` Connected, last receipt
at 0 and the clock at 100000 (elapsed 100000 > 3·T = 15000), and zero prior
reconnection attempts (attempts remain), the tick closes and destroys the
connection and fires the disconnect hook — but does not transition it to
Failed and schedules no reconnection attempt: the emitted actions are
exactly `Close` and the disconnect callback. -/
theorem heartbeatLoss_no_reconnect_cex :
    (checkForHeartbeatLoss 5000 100000
        { appState := AppState.Running
          peerConnections := [(strL "v", some { connState := PeerConnectionState.Connected })]
          lastHeartbeatRxTime := [(strL "v", 0)]
          reconnectionAttemptCount := [(strL "v", 0)] }).2
      = [MgrAction.closePC (strL "v"),
         MgrAction.invokePeerDisconnected (strL "v") (strL "Heartbeat lost")] ∧
    MgrAction.scheduleReconnect (strL "v") ∉
      (checkForHeartbeatLoss 5000 100000
        { appState := AppState.Running
          peerConnections := [(strL "v", some { connState := PeerConnectionState.Connected })]
          lastHeartbeatRxTime := [(strL "v", 0)]
          reconnectionAttemptCount := [(strL "v", 0)] }).2 ∧
    mapGet (checkForHeartbeatLoss 5000 100000
        { appState := AppState.Running
          peerConnections := [(strL "v", some { connState := PeerConnectionState.Connected })]
          lastHeartbeatRxTime := [(strL "v", 0)]
          reconnectionAttemptCount := [(strL "v", 0)] }).1.peerConnections
      (strL "v") = none := by
  decide

/-- C1 (amended): on a liveness tick with heartbeat period `T ≤ 0` nothing
happens; with `T > 0`, every peer with a recorded heartbeat receipt whose
connection is indexed, non-null and `Connected`, and whose elapsed time since
the last receipt exceeds `3·T`, is destroyed: its connection is closed, the
entry leaves the index, and the application's disconnect hook fires with
reason "Heartbeat lost".  No reconnection attempt is ever scheduled by the
tick (the `attemptReconnection` call is commented out and its body is a
stub), and no transition to `Failed` is performed. -/
theorem heartbeatLoss_destroys_without_reconnect (cfgT now : Int)
    (st : ManagerState) :
    (cfgT ≤ 0 → checkForHeartbeatLoss cfgT now st = (st, [])) ∧
    (∀ q, MgrAction.scheduleReconnect q ∉ (checkForHeartbeatLoss cfgT now st).2) ∧
    (0 < cfgT → ∀ p last pc,
      mapGet st.lastHeartbeatRxTime p = some last →
      mapGet st.peerConnections p = some (some pc) →
      pc.connState = PeerConnectionState.Connected →
      now - last > cfgT * 3 →
      MgrAction.closePC p ∈ (checkForHeartbeatLoss cfgT now st).2 ∧
      MgrAction.invokePeerDisconnected p (strL "Heartbeat lost")
        ∈ (checkForHeartbeatLoss cfgT now st).2 ∧
      mapGet (checkForHeartbeatLoss cfgT now st).1.peerConnections p = none) := by
  refine ⟨?_, ?_, ?_⟩
  · intro hT
    simp [checkForHeartbeatLoss, hT]
  · intro q
    unfold checkForHeartbeatLoss
    by_cases hT : cfgT ≤ 0
    · simp [hT]
    · simp only [hT, if_neg, not_false_iff]
      exact runDestroys_no_reconnect _ _ q
  · intro hT p last pc hlast hpc hconn hstale
    have hmem := mem_stalePeers cfgT now st p last pc hlast hpc hconn hstale
    have hTn : ¬ cfgT ≤ 0 := by omega
    have hrun := runDestroys_hits (stalePeers cfgT now st) st p pc hmem hpc
    simp only [checkForHeartbeatLoss, hTn, if_neg, not_false_iff]
    exact hrun

/-- Witness for C1 at the concrete stale-peer state. -/
theorem heartbeatLoss_destroys_witness :
    MgrAction.closePC (strL "v") ∈
      (checkForHeartbeatLoss 5000 100000
        { appState := AppState.Running
          peerConnections := [(strL "v", some { connState := PeerConnectionState.Connected })]
          lastHeartbeatRxTime := [(strL "v", 0)]
          reconnectionAttemptCount := [(strL "v", 0)] }).2 ∧
    MgrAction.invokePeerDisconnected (strL "v") (strL "Heartbeat lost") ∈
      (checkForHeartbeatLoss 5000 100000
        { appState := AppState.Running
          peerConnections := [(strL "v", some { connState := PeerConnectionState.Connected })]
          lastHeartbeatRxTime := [(strL "v", 0)]
          reconnectionAttemptCount := [(strL "v", 0)] }).2 ∧
    mapGet (checkForHeartbeatLoss 5000 100000
        { appState := AppState.Running
          peerConnections := [(strL "v", some { connState := PeerConnectionState.Connected })]
          lastHeartbeatRxTime := [(strL "v", 0)]
          reconnectionAttemptCount := [(strL "v", 0)] }).1.peerConnections
      (strL "v") = none :=
  (heartbeatLoss_destroys_without_reconnect 5000 100000
      { appState := AppState.Running
        peerConnections := [(strL "v", some { connState := PeerConnectionState.Connected })]
        lastHeartbeatRxTime := [(strL "v", 0)]
        reconnectionAttemptCount := [(strL "v", 0)] }).2.2
    (by decide) (strL "v") 0 { connState := PeerConnectionState.Connected }
    (by decide) (by decide) (by decide) (by decide)

/-- C8: while heartbeat is enabled (`T > 0`) a received heartbeat from peer
`p` sets `last_heartbeat_rx[p]` to the current monotonic-clock reading, and
across any chronological sequence of receipts (times non-decreasing and not
earlier than anything already recorded) the stored per-peer value never
decreases. -/
theorem last_heartbeat_rx_monotone (cfgT : Int) (hT : 0 < cfgT) :
    (∀ (st : ManagerState) (p : List Char) (now : Int),
      mapGet (handleReceivedHeartbeat cfgT now st p).lastHeartbeatRxTime p
        = some now) ∧
    (∀ (es : List (List Char × Int)) (st : ManagerState) (p : List Char)
        (old newv : Int),
      es.Pairwise (fun a b => a.2 ≤ b.2) →
      (∀ e0 ∈ st.lastHeartbeatRxTime, ∀ e ∈ es, e0.2 ≤ e.2) →
      mapGet st.lastHeartbeatRxTime p = some old →
      mapGet (runReceipts cfgT es st).lastHeartbeatRxTime p = some newv →
      old ≤ newv) := by
  constructor
  · intro st p now
    rw [hrh_get]
    simp [hT]
  · intro es st p old newv hpair hinit hold hnew
    exact runReceipts_lower cfgT es st p old hpair hinit hold newv hnew

/-- Witness for C8: a concrete two-receipt chronological run. -/
theorem last_heartbeat_rx_monotone_witness :
    mapGet (handleReceivedHeartbeat 5000 7 {} (strL "v")).lastHeartbeatRxTime
      (strL "v") = some 7 ∧
    (1 : Int) ≤ 9 := by
  constructor
  · exact (last_heartbeat_rx_monotone 5000 (by decide)).1 {} (strL "v") 7
  · exact (last_heartbeat_rx_monotone 5000 (by decide)).2
      [(strL "v", 5), (strL "v", 9)]
      { lastHeartbeatRxTime := [(strL "v", 1)] }
      (strL "v") 1 9 (by decide) (by decide) (by decide) (by decide)

/-- Counterexample for C3: broadcasting to two peers with the channel Open
and to one peer with the channel Open produce the same return value (`true`),
while the numbers of successful enqueues differ (2 vs 1): the call returns
`any_sent`, not the count of successful enqueues. -/
theorem broadcast_return_not_count_cex :
    (sendDataChannelMessageToAllPeers
        { appState := AppState.Running
          peerConnections :=
            [(strL "v", some { channels := [(strL "telemetry", ChannelState.Open)] }),
             (strL "w", some { channels := [(strL "telemetry", ChannelState.Open)] })] }
        (strL "telemetry") (strL "x")).1
      = (sendDataChannelMessageToAllPeers
        { appState := AppState.Running
          peerConnections :=
            [(strL "v", some { channels := [(strL "telemetry", ChannelState.Open)] }),
             (strL "w", some { channels := [(strL "telemetry", ChannelState.Closed)] })] }
        (strL "telemetry") (strL "x")).1 ∧
    (sendDataChannelMessageToAllPeers
        { appState := AppState.Running
          peerConnections :=
            [(strL "v", some { channels := [(strL "telemetry", ChannelState.Open)] }),
             (strL "w", some { channels := [(strL "telemetry", ChannelState.Open)] })] }
        (strL "telemetry") (strL "x")).2.length = 2 ∧
    (sendDataChannelMessageToAllPeers
        { appState := AppState.Running
          peerConnections :=
            [(strL "v", some { channels := [(strL "telemetry", ChannelState.Open)] }),
             (strL "w", some { channels := [(strL "telemetry", ChannelState.Closed)] })] }
        (strL "telemetry") (strL "x")).2.length = 1 := by
  decide

/-- C3 (amended): while the manager is Running, a broadcast enqueues the
payload exactly on the peers whose channel with the given label is Open at
the call (never on a channel not in Open), and returns `true` iff at least
one enqueue succeeded — a boolean, not the count.  When the manager is not
Running it returns `false` and enqueues nothing. -/
theorem broadcast_enqueues_open_iff (st : ManagerState) (label data : List Char)
    (hnd : (st.peerConnections.map Prod.fst).Nodup) :
    (st.appState ≠ AppState.Running →
      sendDataChannelMessageToAllPeers st label data = (false, [])) ∧
    (st.appState = AppState.Running →
      (∀ p, MgrAction.enqueueData p label data
          ∈ (sendDataChannelMessageToAllPeers st label data).2 ↔
        ∃ pc, mapGet st.peerConnections p = some (some pc) ∧
          sendData pc label = true) ∧
      ((sendDataChannelMessageToAllPeers st label data).1 = true ↔
        (sendDataChannelMessageToAllPeers st label data).2 ≠ [])) := by
  constructor
  · intro hns
    simp [sendDataChannelMessageToAllPeers, hns]
  · intro hrun
    have heq : sendDataChannelMessageToAllPeers st label data
        = broadcastLoop label data st.peerConnections := by
      simp [sendDataChannelMessageToAllPeers, hrun]
    rw [heq]
    exact ⟨fun p => broadcastLoop_enqueue_iff label data st.peerConnections p hnd,
           broadcastLoop_ret_iff label data st.peerConnections⟩

/-- Witness for C3 at a concrete Running state with one Open and one Closed
channel. -/
theorem broadcast_enqueues_open_iff_witness :
    (MgrAction.enqueueData (strL "v") (strL "telemetry") (strL "x")
        ∈ (sendDataChannelMessageToAllPeers
          { appState := AppState.Running
            peerConnections :=
              [(strL "v", some { channels := [(strL "telemetry", ChannelState.Open)] }),
               (strL "w", some { channels := [(strL "telemetry", ChannelState.Closed)] })] }
          (strL "telemetry") (strL "x")).2 ↔
      ∃ pc, mapGet
          ([(strL "v", some { channels := [(strL "telemetry", ChannelState.Open)] }),
            (strL "w", some ({ channels := [(strL "telemetry", ChannelState.Closed)] : PC}))] :
              List (List Char × Option PC))
          (strL "v") = some (some pc) ∧ sendData pc (strL "telemetry") = true) :=
  ((broadcast_enqueues_open_iff
      { appState := AppState.Running
        peerConnections :=
          [(strL "v", some { channels := [(strL "telemetry", ChannelState.Open)] }),
           (strL "w", some { channels := [(strL "telemetry", ChannelState.Closed)] })] }
      (strL "telemetry") (strL "x") (by decide)).2 rfl).1 (strL "v")

/-- Counterexample for C7: an Answer from peer `p` with no existing peer
connection does not produce an Error reply — the manager creates a fresh
peer connection for `p` and applies the remote description. -/
theorem answer_without_offer_creates_pc_cex :
    mapGet (({} : ManagerState)).peerConnections (strL "p") = none ∧
    mapGet (handleSignalingMessage 5000 0 {}
        { type := SigType.ANSWER, from_ := strL "p", sdp := some (strL "sdpX") }).1.peerConnections
      (strL "p") = some (some newPC) ∧
    (handleSignalingMessage 5000 0 {}
        { type := SigType.ANSWER, from_ := strL "p", sdp := some (strL "sdpX") }).2
      = [MgrAction.setRemoteDescription (strL "p") (strL "answer") (strL "sdpX")] := by
  decide

/-- C7 (amended): on receipt of an Answer carrying an sdp from peer `p`, the
manager gets-or-creates the peer connection for `p` — creating a fresh one
when none exists, with no requirement of a Connecting state or pending local
Offer — and applies the remote description; no Error reply is sent.  The
peer-error callback fires only when the sdp is missing or the stored
connection pointer is null. -/
theorem answer_applies_remote_unconditionally (cfgT now : Int)
    (st : ManagerState) (msg : SignalMessage) (sdp : List Char)
    (hty : msg.type = SigType.ANSWER) (hsdp : msg.sdp = some sdp)
    (hno : mapGet st.peerConnections msg.from_ = none) :
    mapGet (handleSignalingMessage cfgT now st msg).1.peerConnections msg.from_
      = some (some newPC) ∧
    (handleSignalingMessage cfgT now st msg).2
      = [MgrAction.setRemoteDescription msg.from_ (strL "answer") sdp] := by
  have h1 : handleSignalingMessage cfgT now st msg
      = Prod.mk
          { st with peerConnections := mapSet st.peerConnections msg.from_ (some newPC) }
          [MgrAction.setRemoteDescription msg.from_ (strL "answer") sdp] := by
    simp [handleSignalingMessage, getOrCreatePeerConnection, hty, hno, hsdp]
  rw [h1]
  exact ⟨mapGet_mapSet_self _ _ _, rfl⟩

/-- Witness for C7 at a concrete Answer with no prior connection. -/
theorem answer_applies_remote_unconditionally_witness :
    mapGet (handleSignalingMessage 5000 0 {}
        { type := SigType.ANSWER, from_ := strL "p", sdp := some (strL "sdpX") }).1.peerConnections
      (strL "p") = some (some newPC) ∧
    (handleSignalingMessage 5000 0 {}
        { type := SigType.ANSWER, from_ := strL "p", sdp := some (strL "sdpX") }).2
      = [MgrAction.setRemoteDescription (strL "p") (strL "answer") (strL "sdpX")] :=
  answer_applies_remote_unconditionally 5000 0 {}
    { type := SigType.ANSWER, from_ := strL "p", sdp := some (strL "sdpX") }
    (strL "sdpX") rfl rfl (by decide)

theorem mem_sendMessage {st : RelayState} {ws : Nat} {msg : RelayMsg}
    {w : Nat} {out : RelayMsg} (h : (w, out) ∈ sendMessage st ws msg) :
    out = msg := by
  unfold sendMessage at h
  split at h
  · simp only [List.mem_singleton, Prod.mk.injEq] at h
    exact h.2
  · cases h

theorem routeMessage_out_shape (st : RelayState) (ws : Nat) (msg : RelayMsg)
    (info : ClientInfo) (hinfo : mapGet st.connectedClients ws = some info)
    (hfrom : msg.from_ = info.id) :
    ∀ w out, (w, out) ∈ (routeMessage st ws msg).2 →
      out.from_ = info.id ∨ out.type = "error" := by
  intro w out hmem
  have hne : ¬ msg.from_ ≠ info.id := fun hc => hc hfrom
  simp only [routeMessage, hinfo, if_neg hne] at hmem
  split at hmem
  · -- join branch
    split at hmem
    · cases hmem
    · split at hmem
      · split at hmem
        · have := mem_sendMessage (by simpa using hmem)
          subst this
          exact Or.inl rfl
        · have := mem_sendMessage (by simpa using hmem)
          subst this
          exact Or.inr rfl
      · have := mem_sendMessage (by simpa using hmem)
        subst this
        exact Or.inr rfl
  · split at hmem
    · -- leave branch
      have hmem2 : (w, out) ∈
          (match info.targetId with
           | some t =>
             if t = "" then []
             else
               match mapGet st.sessions t with
               | some targetWs =>
                 if containsKey st.connectedClients targetWs then
                   sendMessage st targetWs
                     { type := "leave"
                       from_ := info.id
                       to_ := t
                       reason := some (jsOrElse msg.reason "Peer left session") }
                 else []
               | none => []
           | none => []) := by
        simpa using hmem
      split at hmem2
      · split at hmem2
        · cases hmem2
        · split at hmem2
          · split at hmem2
            · have := mem_sendMessage hmem2
              subst this
              exact Or.inl rfl
            · cases hmem2
          · cases hmem2
      · cases hmem2
    · split at hmem
      · -- offer/answer/candidate branch
        split at hmem
        · cases hmem
        · split at hmem
          · split at hmem
            · have := mem_sendMessage (by simpa using hmem)
              subst this
              exact Or.inl hfrom
            · have := mem_sendMessage (by simpa using hmem)
              subst this
              exact Or.inr rfl
          · have := mem_sendMessage (by simpa using hmem)
            subst this
            exact Or.inr rfl
      · -- default branch
        have := mem_sendMessage (by simpa using hmem)
        subst this
        exact Or.inr rfl

/-- C2: an envelope whose `from` differs from the link's authenticated
identity is rejected — the relay routes nothing and changes nothing — and
consequently every envelope the relay forwards (a `join_request`, `leave`,
`offer`, `answer` or `candidate` delivery; `error` replies are
relay-originated) carries `from` equal to the authenticated identity of the
sending link. -/
theorem relay_forward_preserves_authenticated_from (st : RelayState) (ws : Nat)
    (msg : RelayMsg) (info : ClientInfo)
    (hinfo : mapGet st.connectedClients ws = some info) :
    (msg.from_ ≠ info.id → routeMessage st ws msg = (st, [])) ∧
    (∀ w out, (w, out) ∈ (routeMessage st ws msg).2 →
      (out.type = "join_request" ∨ out.type = "leave" ∨ out.type = "offer" ∨
        out.type = "answer" ∨ out.type = "candidate") →
      out.from_ = info.id) := by
  constructor
  · intro hne
    simp [routeMessage, hinfo, hne]
  · intro w out hmem hkind
    by_cases hfrom : msg.from_ = info.id
    · rcases routeMessage_out_shape st ws msg info hinfo hfrom w out hmem with h | h
      · exact h
      · rcases hkind with hk | hk | hk | hk | hk <;>
          exact absurd (h.symm.trans hk) (by decide)
    · have hempty : routeMessage st ws msg = (st, []) := by
        simp [routeMessage, hinfo, hfrom]
      rw [hempty] at hmem
      cases hmem

/-- Witness for C2: a spoofed `from` at a concrete one-client relay state is
dropped without routing. -/
theorem relay_forward_preserves_authenticated_from_witness :
    routeMessage
        { connectedClients := [(1, { id := "c" })]
          sessions := [("c", 1)]
          openSockets := [1] }
        1 { type := "offer", from_ := "x", to_ := "c" }
      = ({ connectedClients := [(1, { id := "c" })]
           sessions := [("c", 1)]
           openSockets := [1] }, []) :=
  (relay_forward_preserves_authenticated_from
      { connectedClients := [(1, { id := "c" })]
        sessions := [("c", 1)]
        openSockets := [1] }
      1 { type := "offer", from_ := "x", to_ := "c" } { id := "c" }
      (by decide)).1 (by decide)

/-- Counterexample for C5: a second, distinct link claiming the
already-registered id "v" is not rejected — both links end up live in
`connectedClients` with the same id, and the `sessions` directory is
displaced to the newest link. -/
theorem duplicate_peerid_not_rejected_cex :
    (addClient (addClient { openSockets := [1, 2] } 1 "v") 2 "v").connectedClients
      = [(1, { id := "v" }), (2, { id := "v" })] ∧
    mapGet (addClient (addClient { openSockets := [1, 2] } 1 "v") 2 "v").sessions "v"
      = some 2 ∧
    addClient (addClient { openSockets := [1, 2] } 1 "v") 2 "v"
      ≠ addClient { openSockets := [1, 2] } 1 "v" := by
  decide

/-- C5 (amended): `addClient` rejects only a duplicate WebSocket — adding the
same socket twice leaves the state unchanged; a second distinct link claiming
an already-registered PeerId is accepted, displacing the old link in the
`sessions` directory while both records remain in `connectedClients`.  The
directory itself still never maps one PeerId to two links: `Map.set` keeps
keys unique. -/
theorem addClient_dedup_by_socket (st : RelayState) (ws : Nat) (cid : String) :
    (containsKey st.connectedClients ws = true → addClient st ws cid = st) ∧
    (containsKey st.connectedClients ws = false →
      mapGet (addClient st ws cid).connectedClients ws
        = some { id := cid, targetId := none } ∧
      mapGet (addClient st ws cid).sessions cid = some ws) ∧
    ((st.sessions.map Prod.fst).Nodup →
      ((addClient st ws cid).sessions.map Prod.fst).Nodup) := by
  refine ⟨?_, ?_, ?_⟩
  · intro h
    simp [addClient, h]
  · intro h
    simp [addClient, h, mapGet_mapSet_self]
  · intro hnd
    unfold addClient
    split
    · exact hnd
    · exact mapSet_keys_nodup _ _ _ hnd

/-- Witness for C5: the same socket re-added is ignored; a fresh socket is
registered in both maps. -/
theorem addClient_dedup_by_socket_witness :
    addClient
        { connectedClients := [(1, { id := "v" })]
          sessions := [("v", 1)]
          openSockets := [1] } 1 "w"
      = { connectedClients := [(1, { id := "v" })]
          sessions := [("v", 1)]
          openSockets := [1] } ∧
    mapGet (addClient { openSockets := ([] : List Nat) } 2 "c").sessions "c"
      = some 2 :=
  ⟨(addClient_dedup_by_socket
      { connectedClients := [(1, { id := "v" })]
        sessions := [("v", 1)]
        openSockets := [1] } 1 "w").1 (by decide),
   ((addClient_dedup_by_socket { openSockets := ([] : List Nat) } 2 "c").2.1
      (by decide)).2⟩

/-- Counterexample for C6: when vehicle "v" (socket 1) departs while cockpit
"c" (socket 2) targets it, the relay delivers the Leave but does not clear
the cockpit's partner: `targetId` remains `some "v"`. -/
theorem removeClient_partner_not_cleared_cex :
    (removeClient
        { connectedClients := [(1, { id := "v" }), (2, { id := "c", targetId := some "v" })]
          sessions := [("v", 1), ("c", 2)]
          openSockets := [1, 2] } 1).2
      = [(2, { type := "leave", from_ := "v", to_ := "c",
               reason := some "Peer disconnected" })] ∧
    mapGet (removeClient
        { connectedClients := [(1, { id := "v" }), (2, { id := "c", targetId := some "v" })]
          sessions := [("v", 1), ("c", 2)]
          openSockets := [1, 2] } 1).1.connectedClients 2
      = some { id := "c", targetId := some "v" } := by
  decide

/-- C6 (amended): when the link of client A closes (and A's socket is found
in the `sessions` directory), the relay removes A from `connectedClients`
and from the directory, and delivers
`Leave(from = A, reason = "Peer disconnected")` to every other connected
open peer whose `targetId` equals A's id; every output is such a Leave.  The
surviving peers' `targetId` fields are not cleared: the remaining records
are exactly those of the original map. -/
theorem removeClient_notifies_and_removes (st : RelayState) (ws : Nat)
    (info : ClientInfo) (cid : String)
    (hinfo : mapGet st.connectedClients ws = some info)
    (hsess : findSessionByWs st.sessions ws = some cid) :
    (removeClient st ws).1.connectedClients = mapDelete st.connectedClients ws ∧
    (removeClient st ws).1.sessions = mapDelete st.sessions cid ∧
    (removeClient st ws).1.openSockets = st.openSockets ∧
    (∀ w oi, (w, oi) ∈ mapDelete st.connectedClients ws →
      oi.targetId = some info.id → w ∈ st.openSockets →
      (w, { type := "leave", from_ := info.id, to_ := oi.id,
            reason := some "Peer disconnected" }) ∈ (removeClient st ws).2) ∧
    (∀ w out, (w, out) ∈ (removeClient st ws).2 →
      out.type = "leave" ∧ out.from_ = info.id ∧
      out.reason = some "Peer disconnected") := by
  have hr : removeClient st ws =
      ({ st with
          connectedClients := mapDelete st.connectedClients ws
          sessions := mapDelete st.sessions cid },
       ((mapDelete st.connectedClients ws).filter
          (fun e => decide (e.2.targetId = some info.id))).flatMap
         (fun e =>
           sendMessage st e.1
             { type := "leave"
               from_ := info.id
               to_ := e.2.id
               reason := some "Peer disconnected" })) := by
    unfold removeClient
    rw [hinfo, hsess]
  rw [hr]
  refine ⟨rfl, rfl, rfl, ?_, ?_⟩
  · intro w oi hmem htgt hopen
    apply List.mem_flatMap.mpr
    refine ⟨(w, oi), List.mem_filter.mpr ⟨hmem, by simp [htgt]⟩, ?_⟩
    simp [sendMessage, hopen]
  · intro w out hmem
    obtain ⟨e, _, hsm⟩ := List.mem_flatMap.mp hmem
    have := mem_sendMessage hsm
    subst this
    exact ⟨rfl, rfl, rfl⟩

/-- Witness for C6 at the concrete vehicle/cockpit state. -/
theorem removeClient_notifies_and_removes_witness :
    (2, { type := "leave", from_ := "v", to_ := "c",
          reason := some "Peer disconnected" })
      ∈ (removeClient
        { connectedClients := [(1, { id := "v" }), (2, { id := "c", targetId := some "v" })]
          sessions := [("v", 1), ("c", 2)]
          openSockets := [1, 2] } 1).2 ∧
    (removeClient
        { connectedClients := [(1, { id := "v" }), (2, { id := "c", targetId := some "v" })]
          sessions := [("v", 1), ("c", 2)]
          openSockets := [1, 2] } 1).1.connectedClients
      = mapDelete
          [(1, ({ id := "v" } : ClientInfo)), (2, { id := "c", targetId := some "v" })] 1 :=
  ⟨(removeClient_notifies_and_removes
      { connectedClients := [(1, { id := "v" }), (2, { id := "c", targetId := some "v" })]
        sessions := [("v", 1), ("c", 2)]
        openSockets := [1, 2] } 1 { id := "v" } "v" (by decide) (by decide)).2.2.2.1
      2 { id := "c", targetId := some "v" } (by decide) (by decide) (by decide),
   (removeClient_notifies_and_removes
      { connectedClients := [(1, { id := "v" }), (2, { id := "c", targetId := some "v" })]
        sessions := [("v", 1), ("c", 2)]
        openSockets := [1, 2] } 1 { id := "v" } "v" (by decide) (by decide)).1⟩
